import Mathlib

/-!
Verification of the SimpleLOBStream order-book replication engine.

The development shallowly embeds the Python sources:
  * `streamer.py` — `on_order_book` (REST snapshot fetch), class
    `OrderBookStream` with `get_order_book`, `get_order_book_perp`,
    `update_order_book`, `open_stream_order_book`, `run` and `close`;
  * `main.py` — the `call_order_book` callback's spread computation.

Prices and quantities are Python `Decimal` values (exact decimals); they are
embedded as rationals, the image of the decimal strings under `parseDecimal`.
Python dicts are embedded as association lists with insert-or-replace and
delete operations (`dictSet`, `dictDel`); a real Python dict always has
distinct keys, which the predicate `KeysNodup` captures.
-/

/-- Association-list lookup, the embedding of Python `m[k]` returning
`some v` when the key is present and `none` in place of a `KeyError`. -/

def dictLookup {κ α : Type} [DecidableEq κ] (m : List (κ × α)) (k : κ) :
    Option α :=
  match m with
  | [] => none
  | (k1, v) :: rest => if k1 = k then some v else dictLookup rest k

/-- Association-list insert-or-replace, the embedding of Python
`m[k] = v`: an existing binding is overwritten in place, a new key is
appended at the end (Python dicts preserve insertion order). -/
def dictSet {κ α : Type} [DecidableEq κ] (m : List (κ × α)) (k : κ) (v : α) :
    List (κ × α) :=
  match m with
  | [] => [(k, v)]
  | (k1, v1) :: rest =>
      if k1 = k then (k, v) :: rest else (k1, v1) :: dictSet rest k v

/-- Association-list delete, the embedding of Python `del m[k]`. -/
def dictDel {κ α : Type} [DecidableEq κ] (m : List (κ × α)) (k : κ) :
    List (κ × α) :=
  match m with
  | [] => []
  | (k1, v1) :: rest =>
      if k1 = k then rest else (k1, v1) :: dictDel rest k

/-- The keys of an association list are pairwise distinct — true of every
state a Python dict can be in. -/
abbrev KeysNodup {κ α : Type} (m : List (κ × α)) : Prop :=
  (m.map Prod.fst).Nodup

/-- Number of bindings an association list holds for a key. -/
def countKey {κ α : Type} [DecidableEq κ] (m : List (κ × α)) (k : κ) : Nat :=
  m.countP (fun e => decide (e.1 = k))

/-- One side of the book: the embedding of `book['bids']` or `book['asks']`,
a Python dict from `Decimal` price to `Decimal` quantity. -/
abbrev Side := List (ℚ × ℚ)

/-- A per-symbol book, the embedding of `{'bids': {...}, 'asks': {...}}`. -/
structure Book where
  bids : Side
  asks : Side
deriving DecidableEq

/-- The `OrderBook` namedtuple of `streamer.py`: the snapshot's bid and ask
levels as sequences. -/
structure OrderBook where
  bids : List (ℚ × ℚ)
  asks : List (ℚ × ℚ)
deriving DecidableEq

/-- One delta applied to one side, the embedding of the per-entry body of the
update loops in `OrderBookStream.update_order_book` (streamer.py lines
104-116): `if q > 0: book[side][p] = q  elif p in book[side]: del book[side][p]`. -/
def applyDelta (s : Side) (p : ℚ) (q : ℚ) : Side :=
  if 0 < q then dictSet s p q
  else if (dictLookup s p).isSome then dictDel s p
  else s

/-- Sequential application of one update list to one side, the embedding of
the `for ask in asks` / `for bid in bids` loops of `update_order_book`. -/
def applyDeltas (s : Side) (us : List (ℚ × ℚ)) : Side :=
  us.foldl (fun acc u => applyDelta acc u.1 u.2) s

/-- A depth update frame's payload: `updates['a']` (asks) and `updates['b']`
(bids), each entry already converted by `Decimal`. -/
structure Updates where
  a : List (ℚ × ℚ)
  b : List (ℚ × ℚ)
deriving DecidableEq

/-- Snapshot insertion, the embedding of the two `for (p, q) in order_book`
loops of `update_order_book` (streamer.py lines 97-100): every snapshot level
is written into the side verbatim, asks first. -/
def applySnapshot (book : Book) (snap : OrderBook) : Book :=
  { bids := snap.bids.foldl (fun acc l => dictSet acc l.1 l.2) book.bids,
    asks := snap.asks.foldl (fun acc l => dictSet acc l.1 l.2) book.asks }

/-- Delta application to both sides, asks first then bids, exactly as the
update loops of `update_order_book` (streamer.py lines 102-116). -/
def applyUpdates (book : Book) (upd : Updates) : Book :=
  { bids := applyDeltas book.bids upd.b,
    asks := applyDeltas book.asks upd.a }

/-- Embedding of the body of `OrderBookStream.update_order_book` acting on
one symbol's book (streamer.py lines 94-116): when both sides are empty the
snapshot returned by `on_order_book` is applied first, then the incoming
update lists are merged.  The `snap` argument stands for the value a
successful `on_order_book(symbol)` call returns; the second component counts
how many snapshot fetches the call performed (0 or 1). -/
def update_order_book (book : Book) (snap : OrderBook) (upd : Updates) :
    Book × Nat :=
  let init : Book × Nat :=
    if book.asks.length = 0 ∧ book.bids.length = 0 then
      (applySnapshot book snap, 1)
    else (book, 0)
  (applyUpdates init.1 upd, init.2)

/-- Every quantity stored on a side is positive — the spec's invariant that a
price level with quantity ≤ 0 is never present as a key. -/
abbrev SidePos (s : Side) : Prop := ∀ l ∈ s, 0 < l.2

/-- Both sides of a book satisfy the positivity invariant. -/
abbrev BookPos (b : Book) : Prop := SidePos b.bids ∧ SidePos b.asks

/-- All levels of a snapshot carry positive quantity (the spec's assumption
on the REST feed: qty assumed > 0). -/
abbrev SnapPos (ob : OrderBook) : Prop :=
  (∀ l ∈ ob.bids, 0 < l.2) ∧ (∀ l ∈ ob.asks, 0 < l.2)

/-- A whole history: each entry carries the snapshot that an
`on_order_book` call would return at that point together with the incoming
update lists; the book evolves by the `update_order_book` body. -/
def runUpdates (b : Book) (ops : List (OrderBook × Updates)) : Book :=
  ops.foldl (fun acc op => (update_order_book acc op.1 op.2).1) b

/-- Value of a nonempty digit string, `none` on any non-digit character. -/
def parseDigitsAux (cs : List Char) (acc : ℕ) : Option ℕ :=
  match cs with
  | [] => some acc
  | c :: rest =>
      if c.isDigit then parseDigitsAux rest (acc * 10 + (c.toNat - 48))
      else none

/-- Digit-string parser: one or more decimal digits. -/
def parseDigits (cs : List Char) : Option ℕ :=
  match cs with
  | [] => none
  | _ :: _ => parseDigitsAux cs 0

/-- Split a character list at the dots. -/
def splitDotAux (cs : List Char) (cur : List Char) : List (List Char) :=
  match cs with
  | [] => [cur.reverse]
  | c :: rest =>
      if c = '.' then cur.reverse :: splitDotAux rest []
      else splitDotAux rest (c :: cur)

/-- Embedding of Python `Decimal(s)` on the nonnegative decimal literals the
feed sends — digits with at most one dot, value
`whole + fraction / 10 ^ digits`, here built as one exact fraction; `none`
stands for the `InvalidOperation` a non-literal string raises. -/
def parseDecimal (s : String) : Option ℚ :=
  match splitDotAux s.data [] with
  | [w] => (parseDigits w).map (fun n => mkRat n 1)
  | [w, f] =>
      match parseDigits w, parseDigits f with
      | some n, some m =>
          some (mkRat (n * 10 ^ f.length + m) (10 ^ f.length))
      | _, _ => none
  | _ => none

/-- Raw update entries exactly as a depth frame carries them: lists of
`[priceString, quantityString]` pairs, `a` for asks and `b` for bids. -/
structure UpdatesRaw where
  a : List (String × String)
  b : List (String × String)
deriving DecidableEq

/-- The update loops of `update_order_book` on the raw string entries:
each entry is converted by `Decimal` and merged in order; `none` stands for
the exception an unparseable entry raises. -/
def applyDeltasRaw (s : Side) (us : List (String × String)) : Option Side :=
  match us with
  | [] => some s
  | u :: rest =>
      match parseDecimal u.1, parseDecimal u.2 with
      | some p, some q => applyDeltasRaw (applyDelta s p q) rest
      | _, _ => none

/-- The body of `update_order_book` taken from the raw string update lists
(asks first, then bids), bootstrapping from `snap` when both sides are
empty, exactly as `update_order_book` with `parseDecimal` composed in. -/
def update_order_book_raw (book : Book) (snap : OrderBook)
    (upd : UpdatesRaw) : Option (Book × Nat) :=
  let init : Book × Nat :=
    if book.asks.length = 0 ∧ book.bids.length = 0 then
      (applySnapshot book snap, 1)
    else (book, 0)
  match applyDeltasRaw init.1.asks upd.a with
  | none => none
  | some aks =>
      match applyDeltasRaw init.1.bids upd.b with
      | none => none
      | some bds => some (⟨bds, aks⟩, init.2)

/-- Comparison used by `sorted(lob['asks'].items())`: ascending by price key
(Python compares the tuples, but the book's keys are distinct so the first
components decide). -/
def keyLE (x y : ℚ × ℚ) : Prop := x.1 ≤ y.1

/-- Comparison used by `sorted(lob['bids'].items(), reverse=True)`:
descending by price key. -/
def keyGE (x y : ℚ × ℚ) : Prop := y.1 ≤ x.1

instance : DecidableRel keyLE :=
  fun x y => inferInstanceAs (Decidable (x.1 ≤ y.1))

instance : DecidableRel keyGE :=
  fun x y => inferInstanceAs (Decidable (y.1 ≤ x.1))

instance : IsTotal (ℚ × ℚ) keyLE := ⟨fun x y => le_total x.1 y.1⟩

instance : IsTrans (ℚ × ℚ) keyLE := ⟨fun _ _ _ h1 h2 => le_trans h1 h2⟩

instance : IsTotal (ℚ × ℚ) keyGE := ⟨fun x y => le_total y.1 x.1⟩

instance : IsTrans (ℚ × ℚ) keyGE := ⟨fun _ _ _ h1 h2 => le_trans h2 h1⟩

/-- Rounding to four decimal places, the embedding of `round(x, 4)`.  The
Python code converts the two Decimal keys to binary floats, subtracts and
rounds half-to-even; the embedding subtracts exactly and rounds half up.
The two agree on every value whose scaled fractional part is not exactly
one half and within float precision, which covers every claim below. -/
def round4 (q : ℚ) : ℚ := ((⌊q * 10000 + 1 / 2⌋ : ℤ) : ℚ) / 10000

/-- What the spread computation in `call_order_book` can do: produce a
number, or raise `IndexError` from the `[0]` subscript on an empty side. -/
inductive SpreadOutcome
| value (q : ℚ)
| indexError
deriving DecidableEq

/-- Embedding of the spread computation of `call_order_book` (main.py lines
40-46): sort asks ascending and bids descending by price, subtract the first
keys and round to 4 places; with an empty side the `[0]` subscript raises
`IndexError`. -/
def call_spread (book : Book) : SpreadOutcome :=
  match (List.insertionSort keyLE book.asks).head?,
      (List.insertionSort keyGE book.bids).head? with
  | some a0, some b0 => .value (round4 (a0.1 - b0.1))
  | _, _ => .indexError

/-- The Python exceptions the embedded operations can raise. -/
inductive PyError
| keyError (k : String)
deriving DecidableEq

/-- Character membership, the embedding of Python `c in s`. -/
def strContains (s : String) (c : Char) : Bool := s.data.contains c

/-- Whether `pre` is an initial segment of `s`, the embedding of Python
`s.find(pre) == 0`. -/
def strStartsWith (s pre : String) : Bool := pre.data.isPrefixOf s.data

/-- State of a pending `socket.recv()` task: whether `.cancel()` has been
called on it. -/
structure RecvTask where
  cancelled : Bool
deriving DecidableEq

/-- The mutable state of an `OrderBookStream` instance: the two per-symbol
book tables, the open-socket id set and the pending receive-task table
(underscore-prefixed attributes in the source). -/
structure StreamState where
  order_books : List (String × Book)
  order_books_perp : List (String × Book)
  sockets : List String
  tasks : List (String × RecvTask)
deriving DecidableEq

/-- Embedding of `OrderBookStream.get_order_book`: an unguarded dict
subscript, raising `KeyError` when the symbol was never opened. -/
def get_order_book (st : StreamState) (symbol : String) :
    Except PyError Book :=
  match dictLookup st.order_books symbol with
  | some b => .ok b
  | none => .error (.keyError symbol)

/-- Embedding of `OrderBookStream.get_order_book_perp`: same unguarded
subscript on the perpetual table. -/
def get_order_book_perp (st : StreamState) (symbol : String) :
    Except PyError Book :=
  match dictLookup st.order_books_perp symbol with
  | some b => .ok b
  | none => .error (.keyError symbol)

/-- Embedding of `OrderBookStream.update_order_book` at the instance level
(streamer.py lines 74-116): the `'_' in symbol` test picks the table, the
unguarded subscript raises `KeyError` for an unopened symbol, and the
selected book is updated in place by the `update_order_book` body. -/
def update_order_book_st (st : StreamState) (symbol : String)
    (snap : OrderBook) (upd : Updates) :
    Except PyError (StreamState × Nat) :=
  if strContains symbol '_' then
    match dictLookup st.order_books_perp symbol with
    | none => .error (.keyError symbol)
    | some book =>
        let r := update_order_book book snap upd
        .ok ({ st with
                order_books_perp := dictSet st.order_books_perp symbol r.1 },
             r.2)
  else
    match dictLookup st.order_books symbol with
    | none => .error (.keyError symbol)
    | some book =>
        let r := update_order_book book snap upd
        .ok ({ st with
                order_books := dictSet st.order_books symbol r.1 },
             r.2)

/-- ASCII lower-casing, the embedding of `symbol.lower()` on the
ASCII pair names this system configures. -/
def strLower (s : String) : String := String.mk (s.data.map Char.toLower)

/-- Session id `f'depth_{symbol.lower()}'` used by
`open_stream_order_book`. -/
def session_id (symbol : String) : String := "depth_" ++ strLower symbol

/-- Embedding of the state change `open_stream_order_book` performs before
spawning `run` (streamer.py line 138): the symbol's book is set to a fresh
empty book, replacing any existing one. -/
def open_stream_order_book (st : StreamState) (symbol : String) :
    StreamState :=
  { st with order_books := dictSet st.order_books symbol ⟨[], []⟩ }

/-- Embedding of the entry of `OrderBookStream.run` (streamer.py lines
186-195): the dedup guard returns at once when the id is already in
`self._sockets`; otherwise `websockets.connect` is attempted and on success
the id is added to the open set.  The boolean records whether a connection
was attempted. -/
def run_enter (st : StreamState) (id : String) : StreamState × Bool :=
  if st.sockets.contains id then (st, false)
  else ({ st with sockets := id :: st.sockets }, true)

/-- Embedding of `OrderBookStream.close` (streamer.py lines 210-219):
`.cancel()` is called on every task in `self._tasks` (the table itself is
not cleared) and `self._sockets` is cleared. -/
def close (st : StreamState) : StreamState :=
  { st with
      tasks := st.tasks.map (fun kt => (kt.1, RecvTask.mk true)),
      sockets := [] }

/-- Decoded depth-frame fields used by the loop: symbol `s`, ask updates
`a`, bid updates `b` (entries already converted by `Decimal`). -/
structure FrameDataPayload where
  s : String
  a : List (ℚ × ℚ)
  b : List (ℚ × ℚ)
deriving DecidableEq

/-- A received websocket frame after `json.loads`: either unparseable (the
`json.loads` call raises) or a decoded depth payload.  The payload is taken
post-envelope (for perpetual ids the code first unwraps `data['data']`) and
carries the fields the loop reads: symbol `s` and the update lists. -/
inductive RawFrame
| malformed
| frame (f : FrameDataPayload)
deriving DecidableEq

/-- How one iteration of the `run` receive loop can end: normally, or
terminated by the exception `json.loads` raises on a malformed frame, or
terminated by an exception out of `update_order_book`.  Each terminating
constructor carries the instance state at the moment the exception
escapes. -/
inductive StepResult
| ok (st : StreamState)
| parseFailure (st : StreamState)
| updateError (st : StreamState)
deriving DecidableEq

/-- Embedding of one iteration of the `while id in self._sockets` body of
`OrderBookStream.run` (streamer.py lines 196-208): the receive task is
recorded in `self._tasks`, the frame is parsed (a failure here escapes with
the task still recorded), the task is deleted, and for depth ids the book
is updated (a failure here escapes with the task already deleted).  `snap`
stands for the snapshot a bootstrap fetch inside `update_order_book` would
return. -/
def loop_iter (st : StreamState) (id : String) (raw : RawFrame)
    (snap : OrderBook) : StepResult :=
  let st1 : StreamState := { st with tasks := dictSet st.tasks id ⟨false⟩ }
  match raw with
  | .malformed => .parseFailure st1
  | .frame f =>
      let st2 : StreamState := { st1 with tasks := dictDel st1.tasks id }
      if strStartsWith id "depth" then
        match update_order_book_st st2 f.s snap ⟨f.a, f.b⟩ with
        | .error _ => .updateError st2
        | .ok res => .ok res.1
      else .ok st2

/-- A parsed snapshot response body: the `bids` and `asks` arrays of
`[priceString, quantityString]` entries. -/
structure DepthJson where
  bids : List (String × String)
  asks : List (String × String)
deriving DecidableEq

/-- The REST response `on_order_book`'s request can see: a 2xx response
whose body either decodes to a depth object or is malformed (`none`), or a
non-2xx status, which `urllib` raises as `HTTPError` carrying the error
body. -/
inductive RestResponse
| success (parsed : Option DepthJson)
| httpError (rawBody : String)
deriving DecidableEq

/-- How `on_order_book` can end: a parsed snapshot; the
`Exception(f'{e.read()}')` the `except urllib.error.HTTPError` clause
raises, carrying the raw error body; or an uncaught parse-shaped exception
(`json.JSONDecodeError`, `KeyError`, `decimal.InvalidOperation`), which
carries no wrapped response body. -/
inductive FetchResult
| ok (ob : OrderBook)
| wrappedError (rawBody : String)
| parseError
deriving DecidableEq

/-- Level-list conversion inside `on_order_book` (streamer.py lines 48-51):
each `[priceString, quantityString]` entry becomes a pair of Decimals;
`none` stands for the exception an unparseable entry raises. -/
def parseLevels (xs : List (String × String)) :
    Option (List (ℚ × ℚ)) :=
  match xs with
  | [] => some []
  | x :: rest =>
      match parseDecimal x.1, parseDecimal x.2, parseLevels rest with
      | some p, some q, some r => some ((p, q) :: r)
      | _, _, _ => none

/-- Embedding of `on_order_book` (streamer.py lines 19-53) as a function of
the REST response it receives: only `HTTPError` (a non-2xx status) is
caught and re-raised as the body-carrying wrapped exception; a body that
fails to decode or convert raises its own exception uncaught. -/
def on_order_book (resp : RestResponse) : FetchResult :=
  match resp with
  | .httpError raw => .wrappedError raw
  | .success none => .parseError
  | .success (some j) =>
      match parseLevels j.bids, parseLevels j.asks with
      | some bs, some aks => .ok ⟨bs, aks⟩
      | _, _ => .parseError

/-- Concrete stream state: symbol `ethbtc` already streaming with one
resting bid, its session id in the open set. -/
def stDup : StreamState :=
  { order_books := [("ethbtc", ⟨[((1 : ℚ), 1)], []⟩)],
    order_books_perp := [],
    sockets := ["depth_ethbtc"],
    tasks := [] }

/-- Concrete stream state: one open session with a pending receive task. -/
def stPending : StreamState :=
  { order_books := [("ethbtc", ⟨[], []⟩)],
    order_books_perp := [],
    sockets := ["depth_ethbtc"],
    tasks := [("depth_ethbtc", RecvTask.mk false)] }

/-- Concrete stream state: no symbol ever opened. -/
def stEmpty : StreamState :=
  { order_books := [], order_books_perp := [], sockets := [], tasks := [] }

/-- Concrete stream state: symbol `ethbtc` opened and its session live,
no pending task recorded. -/
def stLive : StreamState :=
  { order_books := [("ethbtc", ⟨[], []⟩)],
    order_books_perp := [],
    sockets := ["depth_ethbtc"],
    tasks := [] }

section DictLemmas

variable {κ α : Type} [DecidableEq κ]

theorem dictLookup_set_self (m : List (κ × α)) (k : κ) (v : α) :
    dictLookup (dictSet m k v) k = some v := by
  induction m with
  | nil => simp [dictSet, dictLookup]
  | cons e rest ih =>
      obtain ⟨k1, v1⟩ := e
      by_cases h : k1 = k
      · simp [dictSet, h, dictLookup]
      · simp [dictSet, h, dictLookup, ih]

theorem dictLookup_set_ne (m : List (κ × α)) (k k2 : κ) (v : α)
    (h : k2 ≠ k) : dictLookup (dictSet m k v) k2 = dictLookup m k2 := by
  induction m with
  | nil => simp [dictSet, dictLookup, Ne.symm h]
  | cons e rest ih =>
      obtain ⟨k1, v1⟩ := e
      by_cases hk : k1 = k
      · subst hk
        simp [dictSet, dictLookup, Ne.symm h]
      · simp only [dictSet, if_neg hk, dictLookup]
        by_cases hk2 : k1 = k2
        · simp [hk2]
        · simp [hk2, ih]

theorem dictLookup_del_ne (m : List (κ × α)) (k k2 : κ) (h : k2 ≠ k) :
    dictLookup (dictDel m k) k2 = dictLookup m k2 := by
  induction m with
  | nil => simp [dictDel]
  | cons e rest ih =>
      obtain ⟨k1, v1⟩ := e
      by_cases hk : k1 = k
      · subst hk
        simp [dictDel, dictLookup, Ne.symm h]
      · simp only [dictDel, if_neg hk, dictLookup]
        by_cases hk2 : k1 = k2
        · simp [hk2]
        · simp [hk2, ih]

theorem dictLookup_eq_none_of_not_mem_keys (m : List (κ × α)) (k : κ)
    (h : k ∉ m.map Prod.fst) : dictLookup m k = none := by
  induction m with
  | nil => rfl
  | cons e rest ih =>
      obtain ⟨k1, v1⟩ := e
      simp only [List.map_cons, List.mem_cons] at h
      push_neg at h
      simp [dictLookup, Ne.symm h.1, ih h.2]

theorem dictLookup_del_self (m : List (κ × α)) (k : κ)
    (h : KeysNodup m) : dictLookup (dictDel m k) k = none := by
  induction m with
  | nil => rfl
  | cons e rest ih =>
      obtain ⟨k1, v1⟩ := e
      simp only [KeysNodup, List.map_cons, List.nodup_cons] at h
      by_cases hk : k1 = k
      · subst hk
        simp only [dictDel, if_pos rfl]
        exact dictLookup_eq_none_of_not_mem_keys rest k1 h.1
      · simp [dictDel, hk, dictLookup, ih h.2]

theorem mem_keys_dictSet (m : List (κ × α)) (k k2 : κ) (v : α)
    (h : k2 ∈ (dictSet m k v).map Prod.fst) :
    k2 = k ∨ k2 ∈ m.map Prod.fst := by
  induction m with
  | nil =>
      simp only [dictSet, List.map_cons, List.map_nil, List.mem_singleton] at h
      exact Or.inl h
  | cons e rest ih =>
      obtain ⟨k1, v1⟩ := e
      by_cases hk : k1 = k
      · subst hk
        simp only [dictSet, if_true, eq_self_iff_true, List.map_cons,
          List.mem_cons] at h
        rcases h with h | h
        · exact Or.inl h
        · exact Or.inr (List.mem_cons_of_mem _ h)
      · simp only [dictSet, if_neg hk, List.map_cons, List.mem_cons] at h
        rcases h with h | h
        · exact Or.inr (by simp [h])
        · rcases ih h with h2 | h2
          · exact Or.inl h2
          · exact Or.inr (List.mem_cons_of_mem _ h2)

theorem keysNodup_set (m : List (κ × α)) (k : κ) (v : α)
    (h : KeysNodup m) : KeysNodup (dictSet m k v) := by
  induction m with
  | nil => simp [dictSet, KeysNodup]
  | cons e rest ih =>
      obtain ⟨k1, v1⟩ := e
      simp only [KeysNodup, List.map_cons, List.nodup_cons] at h
      by_cases hk : k1 = k
      · subst hk
        simpa [dictSet, KeysNodup] using h
      · have hmem : k1 ∉ (dictSet rest k v).map Prod.fst := by
          intro hcontra
          rcases mem_keys_dictSet rest k k1 v hcontra with hcase | hcase
          · exact hk hcase
          · exact h.1 hcase
        simp only [KeysNodup, dictSet, if_neg hk, List.map_cons,
          List.nodup_cons]
        exact ⟨hmem, ih h.2⟩

theorem countKey_set_self (m : List (κ × α)) (k : κ) (v : α)
    (h : KeysNodup m) : countKey (dictSet m k v) k = 1 := by
  induction m with
  | nil => simp [dictSet, countKey]
  | cons e rest ih =>
      obtain ⟨k1, v1⟩ := e
      simp only [KeysNodup, List.map_cons, List.nodup_cons] at h
      by_cases hk : k1 = k
      · subst hk
        have hz : countKey rest k1 = 0 := by
          rw [countKey, List.countP_eq_zero]
          intro e he
          simp only [decide_eq_true_eq]
          intro hcontra
          exact h.1 (List.mem_map.mpr ⟨e, he, hcontra⟩)
        simp [dictSet, countKey, List.countP_cons] at hz ⊢
        exact hz
      · simp only [dictSet, if_neg hk, countKey, List.countP_cons,
          decide_eq_true_eq]
        simp only [hk, if_false, add_zero]
        exact ih h.2

end DictLemmas

/-- C1: `applyDelta` with a positive quantity is insert-or-replace — the side
afterwards holds exactly one binding at that price, with the new quantity,
and every other price's binding is untouched; with quantity ≤ 0 the binding
at that price is removed when present (other prices untouched) and the side
is returned unchanged, with no error, when the price is absent; applying
quantities q1 then q with q1, q > 0 at the same price also leaves exactly one
binding holding q. -/
theorem applyDelta_insert_replace_remove (s : Side) (p q : ℚ)
    (hwf : KeysNodup s) :
    (0 < q →
      dictLookup (applyDelta s p q) p = some q ∧
      countKey (applyDelta s p q) p = 1 ∧
      ∀ p2, p2 ≠ p → dictLookup (applyDelta s p q) p2 = dictLookup s p2) ∧
    (q ≤ 0 →
      dictLookup (applyDelta s p q) p = none ∧
      ∀ p2, p2 ≠ p → dictLookup (applyDelta s p q) p2 = dictLookup s p2) ∧
    (q ≤ 0 → dictLookup s p = none → applyDelta s p q = s) ∧
    (∀ q1, 0 < q1 → 0 < q →
      dictLookup (applyDelta (applyDelta s p q1) p q) p = some q ∧
      countKey (applyDelta (applyDelta s p q1) p q) p = 1) := by
  refine ⟨?_, ?_, ?_, ?_⟩
  · intro hq
    rw [applyDelta, if_pos hq]
    exact ⟨dictLookup_set_self s p q, countKey_set_self s p q hwf,
      fun p2 h2 => dictLookup_set_ne s p p2 q h2⟩
  · intro hq
    rw [applyDelta, if_neg (not_lt.mpr hq)]
    by_cases hp : (dictLookup s p).isSome
    · rw [if_pos hp]
      exact ⟨dictLookup_del_self s p hwf,
        fun p2 h2 => dictLookup_del_ne s p p2 h2⟩
    · rw [if_neg hp]
      rw [Option.isSome_iff_exists] at hp
      push_neg at hp
      refine ⟨?_, fun p2 h2 => rfl⟩
      cases hopt : dictLookup s p with
      | none => rfl
      | some v => exact absurd hopt (hp v)
  · intro hq hnone
    rw [applyDelta, if_neg (not_lt.mpr hq), hnone]
    simp
  · intro q1 hq1 hq
    have hwf2 : KeysNodup (applyDelta s p q1) := by
      rw [applyDelta, if_pos hq1]
      exact keysNodup_set s p q1 hwf
    rw [applyDelta, if_pos hq]
    exact ⟨dictLookup_set_self _ p q, countKey_set_self _ p q hwf2⟩

/-- Witness for C1: the side holding only price 100 at quantity 2, updated at
price 100 with quantity 5. -/
theorem applyDelta_insert_replace_remove_witness :
    KeysNodup ([((100 : ℚ), (2 : ℚ))] : Side) ∧
    (0 < (5 : ℚ) →
      dictLookup (applyDelta [((100 : ℚ), 2)] 100 5) 100 = some 5 ∧
      countKey (applyDelta [((100 : ℚ), 2)] 100 5) 100 = 1 ∧
      ∀ p2, p2 ≠ 100 →
        dictLookup (applyDelta [((100 : ℚ), 2)] 100 5) p2 =
          dictLookup [((100 : ℚ), 2)] p2) :=
  ⟨by decide,
   (applyDelta_insert_replace_remove [((100 : ℚ), 2)] 100 5 (by decide)).1⟩

/-- C2: one call of `update_order_book` on a book empty on both sides fetches
and applies the snapshot exactly once and applies the triggering delta
afterwards (the delta is not dropped); on a book non-empty on either side it
performs no snapshot fetch and only merges the delta. -/
theorem update_order_book_bootstrap_once (book : Book) (snap : OrderBook)
    (upd : Updates) :
    (book.asks = [] ∧ book.bids = [] →
      update_order_book book snap upd =
        (applyUpdates (applySnapshot book snap) upd, 1)) ∧
    (book.asks ≠ [] ∨ book.bids ≠ [] →
      update_order_book book snap upd = (applyUpdates book upd, 0)) := by
  constructor
  · intro h
    rw [update_order_book]
    simp [h.1, h.2]
  · intro h
    rw [update_order_book]
    have hne : ¬(book.asks = [] ∧ book.bids = []) := by
      rcases h with h | h
      · exact fun hc => h hc.1
      · exact fun hc => h hc.2
    simp [hne]

/-- Witness for C2: the empty book bootstraps (one fetch) and a book with a
resting ask does not (zero fetches). -/
theorem update_order_book_bootstrap_once_witness :
    (([] : Side) = [] ∧ ([] : Side) = []) ∧
    update_order_book ⟨[], []⟩ ⟨[((100 : ℚ), 2)], [((101 : ℚ), 3)]⟩
        ⟨[((102 : ℚ), 1)], []⟩ =
      (applyUpdates
        (applySnapshot ⟨[], []⟩ ⟨[((100 : ℚ), 2)], [((101 : ℚ), 3)]⟩)
        ⟨[((102 : ℚ), 1)], []⟩, 1) :=
  ⟨⟨rfl, rfl⟩,
   (update_order_book_bootstrap_once ⟨[], []⟩
      ⟨[((100 : ℚ), 2)], [((101 : ℚ), 3)]⟩ ⟨[((102 : ℚ), 1)], []⟩).1
      ⟨rfl, rfl⟩⟩

theorem mem_dictDel {κ α : Type} [DecidableEq κ] (m : List (κ × α)) (k : κ)
    (l : κ × α) (h : l ∈ dictDel m k) : l ∈ m := by
  induction m with
  | nil => simp [dictDel] at h
  | cons e rest ih =>
      obtain ⟨k1, v1⟩ := e
      by_cases hk : k1 = k
      · subst hk
        simp only [dictDel, if_pos rfl] at h
        exact List.mem_cons_of_mem _ h
      · simp only [dictDel, if_neg hk, List.mem_cons] at h
        rcases h with h | h
        · exact h ▸ List.mem_cons_self _ _
        · exact List.mem_cons_of_mem _ (ih h)

theorem mem_dictSet {κ α : Type} [DecidableEq κ] (m : List (κ × α)) (k : κ)
    (v : α) (l : κ × α) (h : l ∈ dictSet m k v) : l = (k, v) ∨ l ∈ m := by
  induction m with
  | nil => simpa [dictSet] using h
  | cons e rest ih =>
      obtain ⟨k1, v1⟩ := e
      by_cases hk : k1 = k
      · subst hk
        simp only [dictSet, if_true, eq_self_iff_true, List.mem_cons] at h
        rcases h with h | h
        · exact Or.inl h
        · exact Or.inr (List.mem_cons_of_mem _ h)
      · simp only [dictSet, if_neg hk, List.mem_cons] at h
        rcases h with h | h
        · exact Or.inr (h ▸ List.mem_cons_self _ _)
        · rcases ih h with h2 | h2
          · exact Or.inl h2
          · exact Or.inr (List.mem_cons_of_mem _ h2)

theorem sidePos_dictSet (s : Side) (p q : ℚ) (hs : SidePos s) (hq : 0 < q) :
    SidePos (dictSet s p q) := by
  intro l hl
  rcases mem_dictSet s p q l hl with h | h
  · rw [h]
    exact hq
  · exact hs l h

theorem sidePos_applyDelta (s : Side) (p q : ℚ) (hs : SidePos s) :
    SidePos (applyDelta s p q) := by
  rw [applyDelta]
  by_cases hq : 0 < q
  · rw [if_pos hq]
    exact sidePos_dictSet s p q hs hq
  · rw [if_neg hq]
    by_cases hp : (dictLookup s p).isSome
    · rw [if_pos hp]
      exact fun l hl => hs l (mem_dictDel s p l hl)
    · rw [if_neg hp]
      exact hs

theorem sidePos_applyDeltas (s : Side) (us : List (ℚ × ℚ))
    (hs : SidePos s) : SidePos (applyDeltas s us) := by
  induction us generalizing s with
  | nil => exact hs
  | cons u rest ih =>
      rw [applyDeltas, List.foldl_cons]
      exact ih (applyDelta s u.1 u.2) (sidePos_applyDelta s u.1 u.2 hs)

theorem sidePos_snapshotFold (s : Side) (levels : List (ℚ × ℚ))
    (hs : SidePos s) (hl : ∀ l ∈ levels, 0 < l.2) :
    SidePos (levels.foldl (fun acc l => dictSet acc l.1 l.2) s) := by
  induction levels generalizing s with
  | nil => exact hs
  | cons lv rest ih =>
      rw [List.foldl_cons]
      exact ih (dictSet s lv.1 lv.2)
        (sidePos_dictSet s lv.1 lv.2 hs (hl lv (List.mem_cons_self _ _)))
        (fun l hmem => hl l (List.mem_cons_of_mem _ hmem))

theorem bookPos_update_order_book (book : Book) (snap : OrderBook)
    (upd : Updates) (hb : BookPos book) (hsnap : SnapPos snap) :
    BookPos (update_order_book book snap upd).1 := by
  rw [update_order_book]
  by_cases hc : book.asks.length = 0 ∧ book.bids.length = 0
  · simp only [if_pos hc]
    constructor
    · exact sidePos_applyDeltas _ _
        (sidePos_snapshotFold book.bids snap.bids hb.1 hsnap.1)
    · exact sidePos_applyDeltas _ _
        (sidePos_snapshotFold book.asks snap.asks hb.2 hsnap.2)
  · simp only [if_neg hc]
    exact ⟨sidePos_applyDeltas _ _ hb.1, sidePos_applyDeltas _ _ hb.2⟩

/-- C6: starting from the empty book, whatever sequence of
snapshot-plus-delta merges runs, provided every snapshot's levels carry
positive quantity, no price key with quantity ≤ 0 is ever present on either
side of the book. -/
theorem book_positive_invariant (ops : List (OrderBook × Updates))
    (h : ∀ op ∈ ops, SnapPos op.1) :
    BookPos (runUpdates ⟨[], []⟩ ops) := by
  suffices hgen : ∀ b : Book, BookPos b → BookPos (runUpdates b ops) by
    exact hgen ⟨[], []⟩ ⟨by simp, by simp⟩
  induction ops with
  | nil => exact fun b hb => hb
  | cons op rest ih =>
      intro b hb
      rw [runUpdates, List.foldl_cons]
      exact ih (fun o ho => h o (List.mem_cons_of_mem _ ho))
        (update_order_book b op.1 op.2).1
        (bookPos_update_order_book b op.1 op.2 hb
          (h op (List.mem_cons_self _ _)))

/-- Witness for C6: a two-step history — bootstrap from a snapshot, then a
removal plus an insertion — keeps every stored quantity positive. -/
theorem book_positive_invariant_witness :
    (∀ op ∈ ([(⟨[((100 : ℚ), 2)], [((101 : ℚ), 3)]⟩,
        ⟨[((101 : ℚ), 0), ((102 : ℚ), 1)], [((100 : ℚ), 0), ((99 : ℚ), 4)]⟩)] :
        List (OrderBook × Updates)), SnapPos op.1) ∧
    BookPos (runUpdates ⟨[], []⟩
      [(⟨[((100 : ℚ), 2)], [((101 : ℚ), 3)]⟩,
        ⟨[((101 : ℚ), 0), ((102 : ℚ), 1)], [((100 : ℚ), 0), ((99 : ℚ), 4)]⟩)]) :=
  ⟨by decide,
   book_positive_invariant
     [(⟨[((100 : ℚ), 2)], [((101 : ℚ), 3)]⟩,
       ⟨[((101 : ℚ), 0), ((102 : ℚ), 1)], [((100 : ℚ), 0), ((99 : ℚ), 4)]⟩)]
     (by decide)⟩

/-- C7: the spec's concrete scenario.  From the empty book, bootstrapping
with snapshot bids `[(100, 2)]`, asks `[(101, 3)]` and applying the delta
`a = [["101.0","0"],["102.0","1"]]`, `b = [["100.0","0"],["99.5","4"]]`
yields exactly bids `{99.5: 4}`, asks `{102: 1}` with one snapshot fetch,
and the spread computed from that book is `102 - 99.5 = 2.5`. -/
theorem concrete_snapshot_delta_spread :
    update_order_book_raw ⟨[], []⟩ ⟨[((100 : ℚ), 2)], [((101 : ℚ), 3)]⟩
        ⟨[("101.0", "0"), ("102.0", "1")], [("100.0", "0"), ("99.5", "4")]⟩ =
      some (⟨[(mkRat 199 2, 4)], [((102 : ℚ), 1)]⟩, 1) ∧
    (mkRat 199 2 : ℚ) = 99.5 ∧
    call_spread ⟨[(mkRat 199 2, 4)], [((102 : ℚ), 1)]⟩ =
      .value (5 / 2) ∧
    (5 / 2 : ℚ) = 102 - 99.5 := by
  refine ⟨by decide, by norm_num [Rat.mkRat_eq_div], ?_, by norm_num⟩
  norm_num [call_spread, List.insertionSort, List.orderedInsert, keyLE,
    keyGE, round4, Rat.mkRat_eq_div]

theorem head_sortAsc_min (l : List (ℚ × ℚ)) (a : ℚ × ℚ)
    (h : (List.insertionSort keyLE l).head? = some a) :
    a ∈ l ∧ ∀ x ∈ l, a.1 ≤ x.1 := by
  have hperm := List.perm_insertionSort keyLE l
  have hsorted := List.sorted_insertionSort keyLE l
  cases hs : List.insertionSort keyLE l with
  | nil => rw [hs] at h; exact absurd h (by simp)
  | cons hd t =>
      rw [hs] at h hperm hsorted
      simp only [List.head?_cons, Option.some_inj] at h
      subst h
      constructor
      · exact hperm.mem_iff.mp (List.mem_cons_self _ _)
      · intro x hx
        have hx2 : x ∈ hd :: t := hperm.mem_iff.mpr hx
        rcases List.mem_cons.mp hx2 with h2 | h2
        · subst h2
          exact le_rfl
        · exact List.rel_of_sorted_cons hsorted x h2

theorem head_sortDesc_max (l : List (ℚ × ℚ)) (b : ℚ × ℚ)
    (h : (List.insertionSort keyGE l).head? = some b) :
    b ∈ l ∧ ∀ x ∈ l, x.1 ≤ b.1 := by
  have hperm := List.perm_insertionSort keyGE l
  have hsorted := List.sorted_insertionSort keyGE l
  cases hs : List.insertionSort keyGE l with
  | nil => rw [hs] at h; exact absurd h (by simp)
  | cons hd t =>
      rw [hs] at h hperm hsorted
      simp only [List.head?_cons, Option.some_inj] at h
      subst h
      constructor
      · exact hperm.mem_iff.mp (List.mem_cons_self _ _)
      · intro x hx
        have hx2 : x ∈ hd :: t := hperm.mem_iff.mpr hx
        rcases List.mem_cons.mp hx2 with h2 | h2
        · subst h2
          exact le_rfl
        · exact List.rel_of_sorted_cons hsorted x h2

theorem sortAsc_head_exists (l : List (ℚ × ℚ)) (h : l ≠ []) :
    ∃ a, (List.insertionSort keyLE l).head? = some a := by
  cases hs : List.insertionSort keyLE l with
  | nil =>
      have hperm := List.perm_insertionSort keyLE l
      rw [hs] at hperm
      exact absurd hperm.symm.eq_nil h
  | cons a t => exact ⟨a, rfl⟩

theorem sortDesc_head_exists (l : List (ℚ × ℚ)) (h : l ≠ []) :
    ∃ a, (List.insertionSort keyGE l).head? = some a := by
  cases hs : List.insertionSort keyGE l with
  | nil =>
      have hperm := List.perm_insertionSort keyGE l
      rw [hs] at hperm
      exact absurd hperm.symm.eq_nil h
  | cons a t => exact ⟨a, rfl⟩

/-- C8 (amended): when both sides are non-empty the spread computation of
`call_order_book` produces the best (lowest) ask price minus the best
(highest) bid price, rounded to four decimal places; when either side is
empty it raises `IndexError` — it does not return a bogus number, but it
does not return gracefully either. -/
theorem call_spread_amended (book : Book) :
    (book.asks ≠ [] → book.bids ≠ [] →
      ∃ a b : ℚ, call_spread book = .value (round4 (a - b)) ∧
        (∃ qa, (a, qa) ∈ book.asks) ∧ (∀ l ∈ book.asks, a ≤ l.1) ∧
        (∃ qb, (b, qb) ∈ book.bids) ∧ (∀ l ∈ book.bids, l.1 ≤ b)) ∧
    ((book.asks = [] ∨ book.bids = []) → call_spread book = .indexError) := by
  constructor
  · intro ha hb
    obtain ⟨a0, ha0⟩ := sortAsc_head_exists book.asks ha
    obtain ⟨b0, hb0⟩ := sortDesc_head_exists book.bids hb
    obtain ⟨hamem, hamin⟩ := head_sortAsc_min book.asks a0 ha0
    obtain ⟨hbmem, hbmax⟩ := head_sortDesc_max book.bids b0 hb0
    refine ⟨a0.1, b0.1, ?_, ⟨a0.2, hamem⟩, hamin, ⟨b0.2, hbmem⟩, hbmax⟩
    rw [call_spread, ha0, hb0]
  · intro h
    rcases h with h | h
    · have hnil : List.insertionSort keyLE book.asks = [] := by rw [h]; rfl
      rw [call_spread, hnil]
      cases (List.insertionSort keyGE book.bids).head? <;> rfl
    · have hnil : List.insertionSort keyGE book.bids = [] := by rw [h]; rfl
      rw [call_spread, hnil]
      cases (List.insertionSort keyLE book.asks).head? <;> rfl

/-- Counterexample to C8 as stated.  First: with empty bids the computation
raises `IndexError` (the `[0]` subscript on the empty sorted key list) —
it does not return an absent value without crashing.  Second: the returned
number is the rounded difference, not `bestAsk - bestBid` itself — with
best ask `100.00002` and best bid `100` the code returns `0.0` while
`bestAsk - bestBid = 0.00002 ≠ 0`. -/
theorem call_spread_counterexample :
    call_spread ⟨[], [((101 : ℚ), 3)]⟩ = .indexError ∧
    call_spread ⟨[((100 : ℚ), 1)], [(mkRat 10000002 100000, 1)]⟩ =
      .value 0 ∧
    (mkRat 10000002 100000 : ℚ) - 100 ≠ 0 := by
  refine ⟨by decide, ?_, by norm_num [Rat.mkRat_eq_div]⟩
  norm_num [call_spread, List.insertionSort, List.orderedInsert, keyLE,
    keyGE, round4, Rat.mkRat_eq_div]

/-- Witness for C8 (amended) at a one-level book on each side. -/
theorem call_spread_amended_witness :
    ([((101 : ℚ), 3)] : Side) ≠ [] ∧ ([((100 : ℚ), 2)] : Side) ≠ [] ∧
    (∃ a b : ℚ,
      call_spread ⟨[((100 : ℚ), 2)], [((101 : ℚ), 3)]⟩ =
        .value (round4 (a - b)) ∧
      (∃ qa, (a, qa) ∈ ([((101 : ℚ), 3)] : Side)) ∧
      (∀ l ∈ ([((101 : ℚ), 3)] : Side), a ≤ l.1) ∧
      (∃ qb, (b, qb) ∈ ([((100 : ℚ), 2)] : Side)) ∧
      (∀ l ∈ ([((100 : ℚ), 2)] : Side), l.1 ≤ b)) :=
  ⟨by decide, by decide,
   (call_spread_amended ⟨[((100 : ℚ), 2)], [((101 : ℚ), 3)]⟩).1
     (by decide) (by decide)⟩

/-- C3 (amended): with the session id already in the open set, the dedup
guard at the top of `run` is a pure no-op — the state is untouched and no
second connection is attempted; but the full duplicate-start path through
`open_stream_order_book` first resets that symbol's book to a fresh empty
book before the guard runs, so the existing session's book is cleared even
though no second connection is attempted. -/
theorem duplicate_start_dedup (st : StreamState) (symbol : String)
    (h : st.sockets.contains (session_id symbol) = true) :
    run_enter st (session_id symbol) = (st, false) ∧
    run_enter (open_stream_order_book st symbol) (session_id symbol) =
      (open_stream_order_book st symbol, false) ∧
    dictLookup (open_stream_order_book st symbol).order_books symbol =
      some ⟨[], []⟩ := by
  refine ⟨?_, ?_, dictLookup_set_self _ _ _⟩
  · rw [run_enter, if_pos h]
  · rw [run_enter]
    have hs : (open_stream_order_book st symbol).sockets = st.sockets := rfl
    rw [hs, if_pos h]

/-- Counterexample to C3 as stated: with session `depth_ethbtc` already
open and holding a resting bid, a second
`open_stream_order_book('ethbtc', ...)` leads to no second connection (the
guard in `run` no-ops), yet the existing session's book is NOT left
untouched — line 138 has already replaced it with a fresh empty book. -/
theorem duplicate_start_counterexample :
    (run_enter (open_stream_order_book stDup "ethbtc")
        (session_id "ethbtc")).2 = false ∧
    dictLookup (run_enter (open_stream_order_book stDup "ethbtc")
        (session_id "ethbtc")).1.order_books "ethbtc" = some ⟨[], []⟩ ∧
    dictLookup stDup.order_books "ethbtc" = some ⟨[((1 : ℚ), 1)], []⟩ := by
  decide

/-- Witness for C3 (amended) at the concrete duplicate-session state. -/
theorem duplicate_start_dedup_witness :
    stDup.sockets.contains (session_id "ethbtc") = true ∧
    run_enter stDup (session_id "ethbtc") = (stDup, false) :=
  ⟨by decide, (duplicate_start_dedup stDup "ethbtc" (by decide)).1⟩

/-- C4: after `close`, the open set is empty and every receive task that was
recorded as pending at the moment of the call has had `.cancel()` called on
it (each entry of the task table reappears cancelled, and every entry of the
post-close table is cancelled). -/
theorem close_clears_and_cancels (st : StreamState) :
    (close st).sockets = [] ∧
    (∀ kt ∈ st.tasks, (kt.1, RecvTask.mk true) ∈ (close st).tasks) ∧
    (∀ kt ∈ (close st).tasks, kt.2.cancelled = true) := by
  refine ⟨rfl, ?_, ?_⟩
  · intro kt hkt
    exact List.mem_map.mpr ⟨kt, hkt, rfl⟩
  · intro kt hkt
    rcases List.mem_map.mp hkt with ⟨kt0, hk0, heq⟩
    rw [← heq]

/-- Witness for C4 at a state with one pending receive task. -/
theorem close_clears_and_cancels_witness :
    ("depth_ethbtc", RecvTask.mk false) ∈ stPending.tasks ∧
    (close stPending).sockets = [] ∧
    ("depth_ethbtc", RecvTask.mk true) ∈ (close stPending).tasks :=
  ⟨by decide, (close_clears_and_cancels stPending).1,
   (close_clears_and_cancels stPending).2.1
     ("depth_ethbtc", RecvTask.mk false) (by decide)⟩

/-- C9: for a symbol absent from both book tables (its stream was never
opened), `get_order_book`, `get_order_book_perp` and `update_order_book`
all raise `KeyError` — none of them returns or creates an empty book. -/
theorem unopened_symbol_keyError (st : StreamState) (symbol : String)
    (snap : OrderBook) (upd : Updates)
    (h1 : dictLookup st.order_books symbol = none)
    (h2 : dictLookup st.order_books_perp symbol = none) :
    get_order_book st symbol = .error (.keyError symbol) ∧
    get_order_book_perp st symbol = .error (.keyError symbol) ∧
    update_order_book_st st symbol snap upd = .error (.keyError symbol) := by
  refine ⟨?_, ?_, ?_⟩
  · rw [get_order_book, h1]
  · rw [get_order_book_perp, h2]
  · rw [update_order_book_st]
    by_cases hc : strContains symbol '_'
    · rw [if_pos hc, h2]
    · rw [if_neg hc, h1]

/-- Witness for C9 at the never-opened state and symbol `ethbtc`. -/
theorem unopened_symbol_keyError_witness :
    dictLookup stEmpty.order_books "ethbtc" = none ∧
    dictLookup stEmpty.order_books_perp "ethbtc" = none ∧
    get_order_book stEmpty "ethbtc" = .error (.keyError "ethbtc") :=
  ⟨rfl, rfl,
   (unopened_symbol_keyError stEmpty "ethbtc" ⟨[], []⟩ ⟨[], []⟩ rfl rfl).1⟩

/-- C10 (amended): when an iteration of the receive loop terminates with an
exception, the session id stays in the open set, so every later start of the
same id is rejected by the dedup guard; the last receive task stays recorded
in the pending table only when the frame failed to parse (`json.loads`
raises before `del self._tasks[id]`), while an exception out of
`update_order_book` leaves the task already deleted from the table. -/
theorem loop_failure_open_set_stuck (st : StreamState) (id : String)
    (f : FrameDataPayload) (snap : OrderBook)
    (hid : st.sockets.contains id = true) (hwf : KeysNodup st.tasks) :
    (∀ st2, loop_iter st id .malformed snap = .parseFailure st2 →
      dictLookup st2.tasks id = some (RecvTask.mk false) ∧
      st2.sockets.contains id = true ∧
      run_enter st2 id = (st2, false)) ∧
    (∀ st2, loop_iter st id (.frame f) snap = .updateError st2 →
      dictLookup st2.tasks id = none ∧
      st2.sockets.contains id = true ∧
      run_enter st2 id = (st2, false)) := by
  constructor
  · intro st2 heq
    simp only [loop_iter] at heq
    injection heq with h
    subst h
    refine ⟨dictLookup_set_self _ _ _, hid, ?_⟩
    rw [run_enter, if_pos hid]
  · intro st2 heq
    simp only [loop_iter] at heq
    by_cases hd : strStartsWith id "depth"
    · rw [if_pos hd] at heq
      cases hup : update_order_book_st
          { st with tasks := dictDel (dictSet st.tasks id ⟨false⟩) id }
          f.s snap ⟨f.a, f.b⟩ with
      | error e =>
          rw [hup] at heq
          injection heq with h
          subst h
          refine ⟨?_, hid, ?_⟩
          · exact dictLookup_del_self _ _ (keysNodup_set _ _ _ hwf)
          · rw [run_enter, if_pos hid]
      | ok res =>
          rw [hup] at heq
          cases heq
    · rw [if_neg hd] at heq
      cases heq

/-- Counterexample to C10 as stated: the frame for symbol `ETHBTC` makes
`update_order_book` raise `KeyError` (only `ethbtc` was opened), the loop
terminates with the id still in the open set — but the receive task is NOT
still recorded in the pending table: `del self._tasks[id]` ran before the
update. -/
theorem loop_update_raise_counterexample :
    loop_iter stLive "depth_ethbtc"
        (.frame ⟨"ETHBTC", [], []⟩) ⟨[], []⟩ =
      .updateError stLive ∧
    dictLookup stLive.tasks "depth_ethbtc" = none ∧
    stLive.sockets.contains "depth_ethbtc" = true := by decide

/-- Witness for C10 (amended): the parse-failure branch at a concrete
state, with the task left pending and the restart rejected. -/
theorem loop_failure_open_set_stuck_witness :
    stLive.sockets.contains "depth_ethbtc" = true ∧
    KeysNodup stLive.tasks ∧
    (dictLookup stPending.tasks "depth_ethbtc" = some (RecvTask.mk false) ∧
     stPending.sockets.contains "depth_ethbtc" = true ∧
     run_enter stPending "depth_ethbtc" = (stPending, false)) :=
  ⟨by decide, by decide,
   (loop_failure_open_set_stuck stLive "depth_ethbtc"
      ⟨"ETHBTC", [], []⟩ ⟨[], []⟩ (by decide) (by decide)).1
     stPending (by decide)⟩

/-- C5 (amended): the body-carrying wrapped error is raised exactly for a
non-2xx response (`except urllib.error.HTTPError`); a 2xx response whose
body is malformed or mis-shaped raises its own uncaught parse error, which
does not carry the wrapped response body; and a book is only ever produced
from a well-formed 2xx body — no failure yields an empty book. -/
theorem on_order_book_error_amended (resp : RestResponse) :
    (∀ raw, on_order_book resp = .wrappedError raw ↔ resp = .httpError raw) ∧
    (resp = .success none → on_order_book resp = .parseError) ∧
    (∀ ob, on_order_book resp = .ok ob →
      ∃ j, resp = .success (some j) ∧ parseLevels j.bids = some ob.bids ∧
        parseLevels j.asks = some ob.asks) := by
  refine ⟨?_, ?_, ?_⟩
  · intro raw
    constructor
    · intro h
      cases resp with
      | httpError raw2 =>
          rw [on_order_book] at h
          injection h with h2
          rw [h2]
      | success parsed =>
          cases parsed with
          | none =>
              rw [on_order_book] at h
              cases h
          | some j =>
              rw [on_order_book] at h
              cases hb : parseLevels j.bids with
              | none => rw [hb] at h; cases h
              | some bs =>
                  cases ha : parseLevels j.asks with
                  | none => rw [hb, ha] at h; cases h
                  | some aks => rw [hb, ha] at h; cases h
    · intro h
      rw [h, on_order_book]
  · intro h
    rw [h, on_order_book]
  · intro ob h
    cases resp with
    | httpError raw2 => rw [on_order_book] at h; cases h
    | success parsed =>
        cases parsed with
        | none => rw [on_order_book] at h; cases h
        | some j =>
            rw [on_order_book] at h
            cases hb : parseLevels j.bids with
            | none => rw [hb] at h; cases h
            | some bs =>
                cases ha : parseLevels j.asks with
                | none => rw [hb, ha] at h; cases h
                | some aks =>
                    rw [hb, ha] at h
                    injection h with h2
                    refine ⟨j, rfl, ?_, ?_⟩
                    · rw [hb, ← h2]
                    · rw [ha, ← h2]

/-- Counterexample to C5 as stated: a 2xx response with a malformed body
ends in the uncaught parse error, not in the wrapped error carrying the
raw response body. -/
theorem on_order_book_malformed_counterexample :
    on_order_book (.success none) = .parseError ∧
    on_order_book (.success none) ≠ .wrappedError "raw body" :=
  ⟨rfl, by decide⟩

/-- Witness for C5 (amended) at a concrete non-2xx response. -/
theorem on_order_book_error_amended_witness :
    (RestResponse.httpError "error body" =
      RestResponse.httpError "error body") ∧
    on_order_book (.httpError "error body") = .wrappedError "error body" :=
  ⟨rfl, ((on_order_book_error_amended (.httpError "error body")).1
    "error body").mpr rfl⟩
